import Mathlib

set_option autoImplicit false

/-!
Shallow embedding of the configuration subsystem of the `document-mapper`
repository: the validator (`src/core/util/validator.py`), the environment
loader (`src/core/config/config_loader.py`), the process-wide config cache
(`src/core/config/configuration.py`) and the resource registry
(`src/core/util/resources.py`).

Filesystem state is modelled explicitly as a value of type `FS` (current
working directory, home directory, PyInstaller markers, and the sets of
existing directories and regular files, stored as resolved absolute POSIX
paths).  Python dictionaries are modelled as association lists with
update-in-place-or-append insertion, preserving insertion order.  String
primitives are implemented by structural recursion over character lists so
that every definition evaluates by kernel reduction.
-/

/-! ### String primitives (ASCII models of the Python operations) -/

/-- Python `str.upper()` (ASCII fragment). -/
def pyUpper (s : String) : String := String.mk (s.toList.map Char.toUpper)

/-- Python `str.lower()` (ASCII fragment). -/
def pyLower (s : String) : String := String.mk (s.toList.map Char.toLower)

/-- Whether `pre` is an initial run of `l`. -/
def leadsWith : List Char → List Char → Bool
  | [], _ => true
  | _ :: _, [] => false
  | p :: ps, x :: xs => p = x && leadsWith ps xs

/-- Python `s.startswith(t)`. -/
def strStarts (s t : String) : Bool := leadsWith t.toList s.toList

/-- Split a character list at every occurrence of `c`. -/
def splitChar (c : Char) : List Char → List (List Char)
  | [] => [[]]
  | x :: t =>
    if x = c then [] :: splitChar c t
    else
      match splitChar c t with
      | h :: r => (x :: h) :: r
      | [] => [[x]]

/-- Join character lists with a separator. -/
def joinChar (sep : List Char) : List (List Char) → List Char
  | [] => []
  | [h] => h
  | h :: t => h ++ sep ++ joinChar sep t

/-- Join strings with `/` (as `PurePosixPath` prints its parts). -/
def slashJoin (parts : List String) : String :=
  String.mk (joinChar ['/'] (parts.map String.toList))

/-- One fuelled pass of Python `str.replace` for a nonempty pattern. -/
def replaceFuel : Nat → List Char → List Char → List Char → List Char
  | 0, l, _, _ => l
  | _ + 1, [], _, _ => []
  | n + 1, x :: t, pat, rep =>
    if !pat.isEmpty && leadsWith pat (x :: t) then
      rep ++ replaceFuel n ((x :: t).drop pat.length) pat rep
    else x :: replaceFuel n t pat rep

/-- Python `s.replace(pat, rep)` for a nonempty pattern: replace every
occurrence, scanning left to right. -/
def strReplace (s pat rep : String) : String :=
  String.mk (replaceFuel s.toList.length s.toList pat.toList rep.toList)

/-- `needle in hay` on Python strings. -/
def strContains (hay needle : String) : Bool :=
  let h := hay.toList
  let n := needle.toList
  (List.range (h.length + 1)).any (fun i => leadsWith n (h.drop i))

/-- Python `str.isupper()` (ASCII fragment): at least one cased character
and no lower-case character. -/
def pyIsUpper (s : String) : Bool :=
  s.toList.any (fun c => c.isLower || c.isUpper) &&
  s.toList.all (fun c => !c.isLower)

/-- String concatenation via character lists (kernel-reducible). -/
def strCat (a b : String) : String := String.mk (a.toList ++ b.toList)

/-! ### Python `int()` -/

/-- Python whitespace stripped by `int()`. -/
def isPySpace (c : Char) : Bool :=
  c = ' ' || c = '\t' || c = '\n' || c = '\x0d' || c = '\x0b' || c = '\x0c'

/-- No two consecutive underscores. -/
def noDoubleUnderscore : List Char → Bool
  | [] => true
  | [_] => true
  | a :: b :: t => !(a = '_' && b = '_') && noDoubleUnderscore (b :: t)

/-- Numeric value of a digit string. -/
def digitsVal (l : List Char) : Nat :=
  l.foldl (fun a c => a * 10 + (c.toNat - 48)) 0

/-- Digit run as accepted by Python `int()`: nonempty, digits with single
underscores strictly between digits. -/
def pyDigits (l : List Char) : Option Nat :=
  if !l.isEmpty && l.all (fun c => c.isDigit || c = '_')
      && (match l.head? with | some c => c.isDigit | none => false)
      && (match l.getLast? with | some c => c.isDigit | none => false)
      && noDoubleUnderscore l then
    some (digitsVal (l.filter (fun c => c != '_')))
  else none

/-- Python `int(s)` on a string: strip whitespace, optional sign, base-10
digits; `none` models a raised `ValueError`. -/
def pyInt (s : String) : Option Int :=
  let t := ((s.toList.dropWhile isPySpace).reverse.dropWhile isPySpace).reverse
  match t with
  | '+' :: rest => (pyDigits rest).map Int.ofNat
  | '-' :: rest => (pyDigits rest).map (fun n => -(Int.ofNat n : Int))
  | rest => (pyDigits rest).map Int.ofNat

/-! ### Python dict model (association lists, insertion order preserved) -/

/-- `d[k]` lookup: first (unique) binding of `k`. -/
def dget {α : Type} (d : List (String × α)) (k : String) : Option α :=
  match d with
  | [] => none
  | kv :: t => if kv.1 = k then some kv.2 else dget t k

/-- `d[k] = v` assignment: overwrite the existing binding in place,
otherwise append at the end (Python dict insertion-order semantics). -/
def dinsert {α : Type} (d : List (String × α)) (k : String) (v : α) :
    List (String × α) :=
  match d with
  | [] => [(k, v)]
  | kv :: t => if kv.1 = k then (k, v) :: t else kv :: dinsert t k v

/-- Build a dict from a list of pairs (later pairs overwrite earlier ones,
as in a Python dict comprehension). -/
def pyDict {α : Type} (l : List (String × α)) : List (String × α) :=
  l.foldl (fun d kv => dinsert d kv.1 kv.2) []

/-- Add a name to a list of names if it is not already there. -/
def insertIfAbsent (l : List String) (a : String) : List String :=
  if l.contains a then l else l ++ [a]

/-! ### POSIX path model (`pathlib.Path` on strings) -/

/-- `PurePosixPath.is_absolute()`. -/
def isAbsPath (s : String) : Bool := strStarts s "/"

/-- The root prefix kept by `PurePosixPath`: exactly two leading slashes
are kept as `//`, any other number collapses to `/`; no leading slash
means a relative path. -/
def pathRoot (s : String) : String :=
  if strStarts s "//" && !strStarts s "///" then "//"
  else if strStarts s "/" then "/"
  else ""

/-- The non-root components of a path: empty components and single dots
are dropped (as `PurePosixPath` does); `..` components are kept. -/
def pathParts (s : String) : List String :=
  ((splitChar '/' s.toList).map String.mk).filter (fun p => p != "" && p != ".")

/-- `str(Path(s))`: the normalized textual form of the path. `Path("")`
prints as `"."`. -/
def pathNorm (s : String) : String :=
  let r := pathRoot s
  let parts := pathParts s
  if r = "" && parts.isEmpty then "."
  else strCat r (slashJoin parts)

/-- `Path(s).name`: the final component (empty for a root path). -/
def pathName (s : String) : String :=
  (pathParts s).getLast?.getD ""

/-- Index of the last occurrence of `c` in `l`, if any. -/
def lastIdxOf (l : List Char) (c : Char) : Option Nat :=
  match (l.reverse).findIdx? (fun x => x = c) with
  | some j => some (l.length - 1 - j)
  | none => none

/-- `Path(s).suffix != ""`: the final component has a dot that is neither
its first nor its last character. -/
def pathHasSuffix (s : String) : Bool :=
  let n := (pathName s).toList
  match lastIdxOf n '.' with
  | some i => decide (0 < i) && decide (i < n.length - 1)
  | none => false

/-- Drop `..` components by cancelling them against the preceding
component, as `Path.resolve()` does on a symlink-free tree. -/
def collapseDots (parts : List String) : List String :=
  parts.foldl (fun acc p => if p = ".." then acc.dropLast else acc ++ [p]) []

/-! ### Filesystem state -/

/-- Ambient process/filesystem facts: current working directory, home
directory, the PyInstaller markers (`sys._MEIPASS`, `sys.frozen`), and the
existing directories and regular files (as resolved absolute paths). -/
structure FS where
  cwd : String
  home : String
  meipass : Option String
  frozen : Bool
  dirs : List String
  files : List String
  deriving Repr, DecidableEq

/-- `Path(s).resolve()`: absolutize against the current directory,
normalize, and cancel `..` components. -/
def fsResolve (fs : FS) (s : String) : String :=
  let a := if isAbsPath s then s else strCat (strCat fs.cwd "/") s
  let r := pathRoot a
  let parts := collapseDots (pathParts a)
  if parts.isEmpty then r else strCat r (slashJoin parts)

/-- `Path(s).exists()`: the path (resolved against the current directory)
names an existing directory or regular file. -/
def fsExists (fs : FS) (s : String) : Bool :=
  fs.dirs.contains (fsResolve fs s) || fs.files.contains (fsResolve fs s)

/-- `Path(s).expanduser()`: replace a leading `~` with the home
directory. -/
def expanduser (fs : FS) (s : String) : String :=
  if s = "~" then fs.home
  else if strStarts s "~/" then strCat fs.home (String.mk (s.toList.drop 1))
  else s

/-- All absolute prefixes of an absolute path `p` (that is, `p` itself and
every ancestor directory below the root). -/
def ancestorsOf (p : String) : List String :=
  let parts := pathParts p
  (List.range parts.length).map
    (fun i => strCat "/" (slashJoin (parts.take (i + 1))))

/-- `Path(p).mkdir(parents=True, exist_ok=True)` for a resolved absolute
`p`: record `p` and all its ancestors as existing directories. -/
def mkdirEnsure (fs : FS) (p : String) : FS :=
  { fs with dirs := (ancestorsOf p).foldl insertIfAbsent fs.dirs }

/-- `Path(a) / b`: joining an absolute right operand discards the left
operand. -/
def joinPath (a b : String) : String :=
  if isAbsPath b then b else strCat (strCat a "/") b

/-! ### Enumerations -/

/-- `LogLevel` from `src/core/config/enums.py`: tags with equal textual
values. -/
inductive LogLevel where
  | DEBUG | INFO | WARNING | ERROR | CRITICAL
  deriving Repr, DecidableEq

/-- Enum lookup by value, `LogLevel(s)`. -/
def LogLevel.ofValue (s : String) : Option LogLevel :=
  if s = "DEBUG" then some .DEBUG
  else if s = "INFO" then some .INFO
  else if s = "WARNING" then some .WARNING
  else if s = "ERROR" then some .ERROR
  else if s = "CRITICAL" then some .CRITICAL
  else none

/-- Modelled from the spec: the `AppTheme` enumeration that the validator
imports from `core.enums.app_themes` is not among the sources (the sources
only carry a distinct, unused `ThemeMode` class in
`src/core/config/enums.py`).  The spec describes the theme enumeration as
the tag set {LIGHT, DARK, AUTO} with case-insensitive textual
representation, matched after upper-casing, so its lookup-by-value accepts
exactly the upper-case tags. -/
inductive AppTheme where
  | LIGHT | DARK | AUTO
  deriving Repr, DecidableEq

/-- Modelled from the spec: enum lookup by value, `AppTheme(s)`, over the
tag set {LIGHT, DARK, AUTO}. -/
def AppTheme.ofValue (s : String) : Option AppTheme :=
  if s = "LIGHT" then some .LIGHT
  else if s = "DARK" then some .DARK
  else if s = "AUTO" then some .AUTO
  else none

/-! ### ConfigValidator (`src/core/util/validator.py`)

Each `Option`/failure result models a raised `ValueError`.  The unused
`default` and `field_name` parameters of the Python static methods are
omitted: they never influence the returned value. -/

namespace ConfigValidator

/-- `ensure_positive_int` on a string value: `int(value)` must succeed and
be strictly positive. -/
def ensure_positive_int (value : String) : Option Int :=
  match pyInt value with
  | some n => if n > 0 then some n else none
  | none => none

/-- `ensure_boolean` on a string value: case-insensitive truthy/falsy
token match. -/
def ensure_boolean (value : String) : Option Bool :=
  if ["true", "yes", "1", "on"].contains (pyLower value) then some true
  else if ["false", "no", "0", "off"].contains (pyLower value) then some false
  else none

/-- `ensure_string` on a (non-`None`) string value: identity. -/
def ensure_string (value : String) : String := value

/-- `parse_log_level`: upper-case, then enum lookup by value. -/
def parse_log_level (level : String) : Option LogLevel :=
  LogLevel.ofValue (pyUpper level)

/-- `parse_theme_mode`: upper-case, then enum lookup by value (the enum
itself is modelled from the spec, see `AppTheme`). -/
def parse_theme_mode (mode : String) : Option AppTheme :=
  AppTheme.ofValue (pyUpper mode)

/-- `validate_file_path`: fail when `must_exist` holds and the path does
not exist; otherwise return `str(Path(path))`. -/
def validate_file_path (fs : FS) (path : String) (must_exist : Bool) :
    Option String :=
  if must_exist && !fsExists fs path then none
  else some (pathNorm path)

/-- `validate_directory_path`: optionally create the directory (and its
parents), then return `str(Path(path))`. -/
def validate_directory_path (fs : FS) (path : String)
    (create_if_missing : Bool) : FS × String :=
  let fs2 :=
    if create_if_missing && !fsExists fs path then
      mkdirEnsure fs (fsResolve fs path)
    else fs
  (fs2, pathNorm path)

end ConfigValidator

/-! ### Typed configuration values -/

/-- The typed result of a single cascade step. -/
inductive ConfigValue where
  | bool (b : Bool)
  | int (n : Int)
  | str (s : String)
  | logLevel (l : LogLevel)
  | theme (t : AppTheme)
  deriving Repr, DecidableEq

/-! ### ConfigLoader (`src/core/config/config_loader.py`) -/

/-- The instance state left by `ConfigLoader.__init__`: the chosen
candidate path and whether `self.validator` was ever assigned (when no
candidate `.env` file exists, `__init__` warns and returns before the
`self.validator = ConfigValidator()` line, leaving the attribute
unset). -/
structure LoaderState where
  env_path : String
  hasValidator : Bool
  deriving Repr, DecidableEq

namespace ConfigLoader

/-- `ConfigLoader.__init__(env_path)`: probe the explicit path, then (only
when `sys._MEIPASS` is set) the same relative path under the PyInstaller
bundle root; take the first existing candidate.  When one exists,
`load_dotenv` merges the file into the process environment (the `environ`
argument of `load` below stands for the environment after this merge) and
the validator is created; when none exists, a warning is printed and the
method returns early, so the validator attribute is never created. -/
def init (fs : FS) (env_path : String) : LoaderState :=
  let possible_paths :=
    [env_path] ++
      (match fs.meipass with
       | some m => [joinPath m env_path]
       | none => [])
  match possible_paths.find? (fun p => fsExists fs p) with
  | some p => { env_path := p, hasValidator := true }
  | none => { env_path := env_path, hasValidator := false }

/-- `ConfigLoader._auto_cast(key, value)`: the per-key cascade.  `none`
models a raised exception — in particular the `AttributeError` raised by
reading `self.validator` when it was never assigned.  The filesystem is
threaded because the directory branch creates directories.  First match
wins: `LOG_LEVEL`, `THEME_MODE`, boolean, positive integer, path-like key
(`PATH`/`DIR`/`FILE` substring), plain string. -/
def auto_cast (fs : FS) (st : LoaderState) (key value : String) :
    Option (FS × ConfigValue) :=
  if !st.hasValidator then none
  else if key = "LOG_LEVEL" then
    (ConfigValidator.parse_log_level value).map (fun l => (fs, .logLevel l))
  else if key = "THEME_MODE" then
    (ConfigValidator.parse_theme_mode value).map (fun t => (fs, .theme t))
  else
    match ConfigValidator.ensure_boolean value with
    | some b => some (fs, .bool b)
    | none =>
      match ConfigValidator.ensure_positive_int value with
      | some n => some (fs, .int n)
      | none =>
        if strContains key "PATH" || strContains key "DIR"
            || strContains key "FILE" then
          let p := fsResolve fs (expanduser fs value)
          if pathHasSuffix p then
            (ConfigValidator.validate_file_path fs p false).map
              (fun s => (fs, .str s))
          else
            let r := ConfigValidator.validate_directory_path fs p true
            some (r.1, .str r.2)
        else some (fs, .str (ConfigValidator.ensure_string value))

/-- One iteration of the `load` loop over `os.environ.items()`: keys
passing `key.isupper()` are cast, any exception from the cast falling
back to the raw string. -/
def loadStep (st : LoaderState) (acc : FS × List (String × ConfigValue))
    (kv : String × String) : FS × List (String × ConfigValue) :=
  if pyIsUpper kv.1 then
    match auto_cast acc.1 st kv.1 kv.2 with
    | some fv => (fv.1, dinsert acc.2 kv.1 fv.2)
    | none => (acc.1, dinsert acc.2 kv.1 (.str kv.2))
  else acc

/-- `ConfigLoader.load()`: fold the cast over the ambient process
environment, starting from an empty dict. -/
def load (fs : FS) (st : LoaderState) (environ : List (String × String)) :
    FS × List (String × ConfigValue) :=
  environ.foldl (loadStep st) (fs, [])

end ConfigLoader

/-! ### Config (`src/core/config/configuration.py`) -/

namespace Config

/-- `Config.get()`: when the cached `_instance` is absent, construct a
`ConfigLoader(".env")`, run `load()`, and cache the result; otherwise
return the cache untouched.  Returns the (possibly updated) filesystem,
the new cache, and the returned map. -/
def get (fs : FS) (environ : List (String × String))
    (inst : Option (List (String × ConfigValue))) :
    FS × Option (List (String × ConfigValue)) × List (String × ConfigValue) :=
  match inst with
  | some m => (fs, some m, m)
  | none =>
    let st := ConfigLoader.init fs ".env"
    let r := ConfigLoader.load fs st environ
    (r.1, some r.2, r.2)

end Config

/-! ### Resources (`src/core/util/resources.py`) -/

/-- The class-level mutable state of `Resources`: the normalized resource
configuration `_cfg`, the indexed snapshots `_resources`, the per-category
path attributes installed with `setattr`, the names for which the dynamic
`get_in_<name>`/`get_all_in_<name>` accessors were synthesized, the cached
`_base_path`, and `_resource_key`. -/
structure ResState where
  cfg : List (String × String)
  res : List (String × List String)
  attrs : List (String × String)
  accessors : List String
  basePath : Option String
  resourceKey : String
  deriving Repr, DecidableEq

/-- The pristine class state. -/
def ResState.empty : ResState := ⟨[], [], [], [], none, "resources"⟩

/-- Outcome of `get_in_<name>`: a returned path, a suppressed `None`, a
raised `FileNotFoundError`, or a raised `AttributeError` (category
attribute never installed). -/
inductive ResolveResult where
  | found (p : String)
  | absent
  | notFound
  | attrError
  deriving Repr, DecidableEq

namespace Resources

/-- `Resources._get_base_path()`: compute and cache the resource root —
the PyInstaller bundle root joined with `_resource_key` when frozen, else
the current working directory joined with it (a frozen process always
carries `sys._MEIPASS`). -/
def getBasePath (fs : FS) (st : ResState) : ResState × String :=
  match st.basePath with
  | some b => (st, b)
  | none =>
    let b :=
      if fs.frozen then joinPath (fs.meipass.getD "") st.resourceKey
      else joinPath fs.cwd st.resourceKey
    ({ st with basePath := some b }, b)

/-- `Resources._list_files(directory)`: recursively list all regular
files under the directory; empty when it does not exist. -/
def list_files (fs : FS) (directory : String) : List String :=
  if !fsExists fs directory then []
  else fs.files.filter (fun f => strStarts f (strCat directory "/"))

/-- The filesystem effect and category directory of one non-`base`
iteration of the `initialize` loop: bundled mode uses `root / key`;
source-tree mode uses the configured value if absolute, else
`root / value.name`, created on disk (`mkdir(parents=True,
exist_ok=True)` before `resolve()`). -/
def stepDir (bp : String) (fs : FS) (kv : String × String) : FS × String :=
  if fs.frozen then (fs, joinPath bp kv.1)
  else
    let abs0 := if isAbsPath kv.2 then kv.2 else joinPath bp (pathName kv.2)
    (mkdirEnsure fs (fsResolve fs abs0), abs0)

/-- The resolved absolute category directory of one non-`base`
iteration. -/
def stepPath (bp : String) (fs : FS) (kv : String × String) : String :=
  fsResolve (stepDir bp fs kv).1 (stepDir bp fs kv).2

/-- One iteration of the `initialize` loop over `_cfg.items()` with the
resource root `bp`: the reserved `base` key only installs the root
attribute; any other key resolves its category directory, installs the
attribute, indexes the files, and synthesizes both accessors. -/
def initStep (bp : String) (acc : FS × ResState) (kv : String × String) :
    FS × ResState :=
  if kv.1 = "base" then
    (acc.1, { acc.2 with attrs := dinsert acc.2.attrs "base" bp })
  else
    ((stepDir bp acc.1 kv).1,
      { acc.2 with
        attrs := dinsert acc.2.attrs kv.1 (stepPath bp acc.1 kv)
        res := dinsert acc.2.res kv.1
          (list_files (stepDir bp acc.1 kv).1 (stepPath bp acc.1 kv))
        accessors := insertIfAbsent acc.2.accessors kv.1 })

/-- The shared tail of `Resources.initialize`: resolve (and cache) the
resource root, then walk `_cfg`. -/
def initCore (fs : FS) (st : ResState) : FS × ResState :=
  (getBasePath fs st).1.cfg.foldl
    (initStep (getBasePath fs st).2) (fs, (getBasePath fs st).1)

/-- The `_cfg` dict comprehension of `initialize`: keep the
`RESOURCES_`-prefixed keys, strip the prefix (every occurrence) and
lower-case the remainder. -/
def parseCfg (cfg : List (String × String)) : List (String × String) :=
  pyDict ((cfg.filter (fun kv => strStarts kv.1 "RESOURCES_")).map
    (fun kv => (pyLower (strReplace kv.1 "RESOURCES_" ""), kv.2)))

/-- `Resources.initialize(cfg)`: with a configuration, replace `_cfg` by
its normalized form and refresh `_resource_key`; with none and an empty
cached `_cfg`, log an error and return; then (in the non-error cases) run
the indexing walk. -/
def initialise (fs : FS) (st : ResState) (cfg : Option (List (String × String))) :
    FS × ResState :=
  match cfg with
  | some c =>
    let parsed := parseCfg c
    initCore fs
      { st with
        cfg := parsed
        resourceKey := (dget parsed "base").getD "resources" }
  | none =>
    if st.cfg.isEmpty then (fs, st)
    else initCore fs st

/-- The synthesized `get_all_in_<name>()`: `_resources.get(name, [])`. -/
def get_all_in (st : ResState) (name : String) : List String :=
  (dget st.res name).getD []

/-- `Resources.get_all()`. -/
def get_all (st : ResState) : List (String × List String) := st.res

/-- The synthesized `get_in_<name>(path, suppress)`: an existing path is
returned resolved; else the category directory joined with the path; else
(bundled only) the resource root joined with the path; else a
`FileNotFoundError` — or `None` when `suppress` is set. -/
def get_in (fs : FS) (st : ResState) (name path : String) (suppress : Bool) :
    ResolveResult :=
  if fsExists fs path then .found (fsResolve fs path)
  else
    match dget st.attrs name with
    | none => .attrError
    | some base =>
      let candidate := joinPath base path
      if fsExists fs candidate then .found (fsResolve fs candidate)
      else
        let bc := joinPath (getBasePath fs st).2 path
        if fs.frozen && fsExists fs bc then .found (fsResolve fs bc)
        else if suppress then .absent
        else .notFound

end Resources

example : ConfigValidator.ensure_boolean "On" = some true := by decide
example : ConfigValidator.ensure_boolean "maybe" = none := by decide
example : ConfigValidator.ensure_positive_int "42" = some 42 := by decide
example : ConfigValidator.ensure_positive_int "0" = none := by decide
example : ConfigValidator.ensure_positive_int "-3" = none := by decide
example : ConfigValidator.parse_log_level "debug" = some LogLevel.DEBUG := by
  decide
example : ConfigValidator.parse_log_level "verbose" = none := by decide
example : pathNorm "data//file.txt" = "data/file.txt" := by decide
example : pathHasSuffix "/a/b.txt" = true := by decide
example : pathHasSuffix "/a/b" = false := by decide
example : fsResolve ⟨"/app", "/root", none, false, [], []⟩ "x/y" = "/app/x/y" := by
  decide

/-! ### Demonstration fixtures -/

/-- A source-checkout process: cwd `/app`, not frozen, no bundle, one
icon file on disk. -/
def fsDemo : FS :=
  ⟨"/app", "/root", none, false, ["/", "/app"],
    ["/app/resources/icons/logo.png"]⟩


/-- The state after `ResourceIndex` initialization with a single `icons`
category in source-tree mode. -/
def resDemo : FS × ResState :=
  Resources.initialise fsDemo ResState.empty
    (some [("RESOURCES_ICONS", "assets/icons")])

/-- The key filter as the spec words it: the key matches `[A-Z0-9_]+`. -/
def specUpperIdent (s : String) : Bool :=
  !s.toList.isEmpty &&
    s.toList.all (fun c => (decide ('A' ≤ c) && decide (c ≤ 'Z')) || c.isDigit || c = '_')

/-! ### Association-list lemmas -/

theorem dget_dinsert_self {α : Type} (d : List (String × α)) (k : String) (v : α) :
    dget (dinsert d k v) k = some v := by
  induction d with
  | nil => simp [dget, dinsert]
  | cons kv t ih =>
    by_cases h : kv.1 = k
    · simp [dinsert, h, dget]
    · simp [dinsert, h, dget, ih]

theorem dget_dinsert_ne {α : Type} (d : List (String × α)) (k k' : String) (v : α)
    (h : k' ≠ k) : dget (dinsert d k v) k' = dget d k' := by
  induction d with
  | nil => simp [dget, dinsert, Ne.symm h]
  | cons kv t ih =>
    by_cases h2 : kv.1 = k
    · simp [dinsert, h2, dget, Ne.symm h, h2.symm ▸ Ne.symm h]
    · simp only [dinsert, h2, if_false]
      by_cases h3 : kv.1 = k'
      · simp [dget, h3]
      · simp [dget, h3, ih]

theorem isSome_dget_dinsert {α : Type} (d : List (String × α)) (k k' : String) (v : α) :
    (dget (dinsert d k v) k').isSome = true ↔
      (k' = k ∨ (dget d k').isSome = true) := by
  by_cases h : k' = k
  · subst h; simp [dget_dinsert_self]
  · simp [dget_dinsert_ne d k k' v h, h]

theorem dget_isSome_iff {α : Type} (d : List (String × α)) (k : String) :
    (dget d k).isSome = true ↔ ∃ v, (k, v) ∈ d := by
  induction d with
  | nil => simp [dget]
  | cons kv t ih =>
    by_cases h : kv.1 = k
    · simp only [dget, h, if_true, Option.isSome_some, true_iff]
      exact ⟨kv.2, by rw [← h]; simp⟩
    · simp only [dget, h, if_false, ih, List.mem_cons]
      constructor
      · rintro ⟨v, hv⟩; exact ⟨v, Or.inr hv⟩
      · rintro ⟨v, hv | hv⟩
        · exact absurd (congrArg Prod.fst hv).symm h
        · exact ⟨v, hv⟩

/-! ### Claim C1 -/

/-- C1: refuted on the code — when no configuration file exists at any
candidate location, `ConfigLoader.__init__` warns but returns before
assigning `self.validator`, so every `_auto_cast` call raises
`AttributeError` and `load()` falls back to the raw string for every key:
a truthy boolean token yields the raw string `"true"`, not a typed
boolean, contradicting the claim that the cascade is applied exactly as
when a source file is present (with a validator the same environment
yields a typed boolean). -/
theorem C1_no_env_cascade_skipped :
    (ConfigLoader.init fsDemo ".env").hasValidator = false ∧
    (ConfigLoader.load fsDemo (ConfigLoader.init fsDemo ".env")
        [("SOME_FLAG", "true")]).2 =
      [("SOME_FLAG", ConfigValue.str "true")] ∧
    (ConfigLoader.load fsDemo ⟨".env", true⟩ [("SOME_FLAG", "true")]).2 =
      [("SOME_FLAG", ConfigValue.bool true)] := by
  decide

/-! ### Claim C4 -/

/-- C4: `parse_theme_mode` is case-insensitive over the tag set
{LIGHT, DARK, AUTO}: any string whose upper-casing is a tag succeeds with
the corresponding value, and any other string fails. -/
theorem C4_parse_theme_mode_case_insensitive (s : String) :
    (pyUpper s = "LIGHT" →
      ConfigValidator.parse_theme_mode s = some AppTheme.LIGHT) ∧
    (pyUpper s = "DARK" →
      ConfigValidator.parse_theme_mode s = some AppTheme.DARK) ∧
    (pyUpper s = "AUTO" →
      ConfigValidator.parse_theme_mode s = some AppTheme.AUTO) ∧
    (pyUpper s ≠ "LIGHT" → pyUpper s ≠ "DARK" → pyUpper s ≠ "AUTO" →
      ConfigValidator.parse_theme_mode s = none) := by
  refine ⟨fun h => ?_, fun h => ?_, fun h => ?_, fun h1 h2 h3 => ?_⟩ <;>
    simp [ConfigValidator.parse_theme_mode, AppTheme.ofValue, *]

/-- Witness for C4 at concrete inputs of each casing. -/
theorem C4_witness :
    ConfigValidator.parse_theme_mode "dArk" = some AppTheme.DARK ∧
    ConfigValidator.parse_theme_mode "light" = some AppTheme.LIGHT ∧
    ConfigValidator.parse_theme_mode "AUTO" = some AppTheme.AUTO ∧
    ConfigValidator.parse_theme_mode "darkish" = none :=
  ⟨(C4_parse_theme_mode_case_insensitive "dArk").2.1 (by decide),
   (C4_parse_theme_mode_case_insensitive "light").1 (by decide),
   (C4_parse_theme_mode_case_insensitive "AUTO").2.2.1 (by decide),
   (C4_parse_theme_mode_case_insensitive "darkish").2.2.2
     (by decide) (by decide) (by decide)⟩

/-! ### Claim C7 -/

/-- C7: `Config.get()` loads exactly once: starting from an empty cache a
call runs `ConfigLoader.load` and caches its result, and a second call —
under any mutated environment or filesystem — returns the cached map and
cache unchanged, so `get();get()` equals `get()`. -/
theorem C7_get_single_load (fs1 fs2 : FS) (env1 env2 : List (String × String)) :
    (Config.get fs1 env1 none).2.2 =
      (ConfigLoader.load fs1 (ConfigLoader.init fs1 ".env") env1).2 ∧
    (Config.get fs1 env1 none).2.1 = some (Config.get fs1 env1 none).2.2 ∧
    (Config.get fs2 env2 (Config.get fs1 env1 none).2.1).2.2 =
      (Config.get fs1 env1 none).2.2 ∧
    (Config.get fs2 env2 (Config.get fs1 env1 none).2.1).2.1 =
      (Config.get fs1 env1 none).2.1 := by
  exact ⟨rfl, rfl, rfl, rfl⟩

/-! ### Claim C8 -/

/-- C8: refuted on the code — `validate_file_path` returns
`str(Path(path))`, which does not absolutize a relative input (it keeps
`data/file.txt` relative, contradicting the claim and the function's own
docstring "Absolute, normalized file path"), and with `must_exist` it
accepts any existing entry, including a directory that is not a regular
file. -/
theorem C8_validate_file_path_not_absolute :
    ConfigValidator.validate_file_path fsDemo "data/file.txt" false =
      some "data/file.txt" ∧
    isAbsPath "data/file.txt" = false ∧
    ConfigValidator.validate_file_path fsDemo "/app" true = some "/app" ∧
    fsDemo.files.contains "/app" = false ∧
    fsDemo.dirs.contains "/app" = true := by
  decide

/-! ### Loader fold lemmas -/

theorem loadStep_not_up (st : LoaderState) (fs : FS)
    (d : List (String × ConfigValue)) (kv : String × String)
    (hu : pyIsUpper kv.1 = false) :
    ConfigLoader.loadStep st (fs, d) kv = (fs, d) := by
  simp [ConfigLoader.loadStep, hu]

theorem loadStep_up (st : LoaderState) (fs : FS)
    (d : List (String × ConfigValue)) (kv : String × String)
    (hu : pyIsUpper kv.1 = true) :
    ∃ w, ConfigLoader.loadStep st (fs, d) kv =
      ((ConfigLoader.loadStep st (fs, d) kv).1, dinsert d kv.1 w) := by
  unfold ConfigLoader.loadStep
  cases hc : ConfigLoader.auto_cast fs st kv.1 kv.2 with
  | none => exact ⟨.str kv.2, by simp [hu, hc]⟩
  | some fv => exact ⟨fv.2, by simp [hu, hc]⟩

theorem load_fold_mem (st : LoaderState) (k : String) :
    ∀ (environ : List (String × String)) (fs : FS)
      (d : List (String × ConfigValue)),
      (dget (environ.foldl (ConfigLoader.loadStep st) (fs, d)).2 k).isSome = true ↔
        ((dget d k).isSome = true ∨
          (pyIsUpper k = true ∧ ∃ v, (k, v) ∈ environ)) := by
  intro environ
  induction environ with
  | nil => intro fs d; simp
  | cons kv t ih =>
    intro fs d
    rw [List.foldl_cons]
    by_cases hu : pyIsUpper kv.1 = true
    · obtain ⟨w, hw⟩ := loadStep_up st fs d kv hu
      rw [hw, ih, isSome_dget_dinsert]
      simp only [List.mem_cons]
      constructor
      · rintro ((hk | hd) | ⟨hk, v, hv⟩)
        · exact Or.inr ⟨by rw [hk]; exact hu, kv.2,
            Or.inl (by rw [hk])⟩
        · exact Or.inl hd
        · exact Or.inr ⟨hk, v, Or.inr hv⟩
      · rintro (hd | ⟨hk, v, rfl | hv⟩)
        · exact Or.inl (Or.inr hd)
        · exact Or.inl (Or.inl rfl)
        · exact Or.inr ⟨hk, v, hv⟩
    · rw [loadStep_not_up st fs d kv (by simpa using hu), ih]
      simp only [List.mem_cons]
      constructor
      · rintro (hd | ⟨hk, v, hv⟩)
        · exact Or.inl hd
        · exact Or.inr ⟨hk, v, Or.inr hv⟩
      · rintro (hd | ⟨hk, v, rfl | hv⟩)
        · exact Or.inl hd
        · exact absurd hk hu
        · exact Or.inr ⟨hk, v, hv⟩

theorem load_fold_unchanged (st : LoaderState) (k : String) :
    ∀ (environ : List (String × String)) (fs : FS)
      (d : List (String × ConfigValue)),
      (∀ v, (k, v) ∉ environ) →
      dget (environ.foldl (ConfigLoader.loadStep st) (fs, d)).2 k = dget d k := by
  intro environ
  induction environ with
  | nil => intro fs d _; rfl
  | cons kv t ih =>
    intro fs d hout
    rw [List.foldl_cons]
    have hne : k ≠ kv.1 := by
      intro hk
      exact hout kv.2 (by rw [hk]; exact List.mem_cons_self _ _)
    have htail : ∀ v, (k, v) ∉ t :=
      fun v hv => hout v (List.mem_cons_of_mem _ hv)
    by_cases hu : pyIsUpper kv.1 = true
    · obtain ⟨w, hw⟩ := loadStep_up st fs d kv hu
      rw [hw, ih _ _ htail, dget_dinsert_ne _ _ _ _ hne]
    · rw [loadStep_not_up st fs d kv (by simpa using hu), ih _ _ htail]

theorem load_fold_raw (st : LoaderState) (k v : String) :
    ∀ (environ : List (String × String)) (fs : FS)
      (d : List (String × ConfigValue)),
      (k, v) ∈ environ → (environ.map Prod.fst).Nodup →
      pyIsUpper k = true →
      (∀ g : FS, ConfigLoader.auto_cast g st k v = none) →
      dget (environ.foldl (ConfigLoader.loadStep st) (fs, d)).2 k =
        some (ConfigValue.str v) := by
  intro environ
  induction environ with
  | nil => intro fs d hmem; exact absurd hmem (List.not_mem_nil _)
  | cons kv t ih =>
    intro fs d hmem hnd hup hfail
    rw [List.map_cons, List.nodup_cons] at hnd
    rcases List.mem_cons.1 hmem with heq | hmem_t
    · subst heq
      rw [List.foldl_cons]
      have hstep : ConfigLoader.loadStep st (fs, d) (k, v) =
          (fs, dinsert d k (.str v)) := by
        simp [ConfigLoader.loadStep, hup, hfail fs]
      rw [hstep]
      have hout : ∀ v', (k, v') ∉ t := by
        intro v' hv'
        exact hnd.1 (List.mem_map.2 ⟨(k, v'), hv', rfl⟩)
      rw [load_fold_unchanged st k t _ _ hout, dget_dinsert_self]
    · rw [List.foldl_cons]
      exact ih _ _ hmem_t hnd.2 hup hfail

/-! ### Claim C5 -/

/-- C5: refuted on the code — the key filter is Python's `key.isupper()`,
not the spec's `[A-Z0-9_]+`: the key `A-B` (a character outside the class,
upper-case letters elsewhere) is included in the ConfigMap, and the key
`123` (which matches `[A-Z0-9_]+` but has no cased character) is
excluded. -/
theorem C5_key_filter_not_regex :
    (dget (ConfigLoader.load fsDemo ⟨".env", true⟩ [("A-B", "x")]).2
        "A-B").isSome = true ∧
    specUpperIdent "A-B" = false ∧
    dget (ConfigLoader.load fsDemo ⟨".env", true⟩ [("123", "x")]).2 "123" =
      none ∧
    specUpperIdent "123" = true := by
  decide

/-- C5 (amended): `load()` includes an entry for key `k` iff some pair
`(k, v)` occurs in the environment and `k` passes Python's
`str.isupper()` — at least one cased character and no lower-case
character; keys with other characters qualify when their letters are all
upper-case, and keys without any letter are ignored. -/
theorem C5_amended_key_filter_isupper (fs : FS) (st : LoaderState)
    (environ : List (String × String)) (k : String) :
    (dget (ConfigLoader.load fs st environ).2 k).isSome = true ↔
      (pyIsUpper k = true ∧ ∃ v, (k, v) ∈ environ) := by
  rw [ConfigLoader.load, load_fold_mem]
  simp [dget]

/-! ### Claim C6 -/

/-- C6: when every applicable cascade step fails for a key (for any
intermediate filesystem state), `load()` stores the raw string value
unchanged for that key — never an error and never an absent key. -/
theorem C6_cascade_failure_keeps_raw (fs : FS) (st : LoaderState)
    (environ : List (String × String)) (k v : String)
    (hmem : (k, v) ∈ environ) (hnd : (environ.map Prod.fst).Nodup)
    (hup : pyIsUpper k = true)
    (hfail : ∀ g : FS, ConfigLoader.auto_cast g st k v = none) :
    dget (ConfigLoader.load fs st environ).2 k = some (ConfigValue.str v) :=
  load_fold_raw st k v environ fs [] hmem hnd hup hfail

/-- Witness for C6: `LOG_LEVEL=verbose` ends up as the raw string
`"verbose"`. -/
theorem C6_witness :
    dget (ConfigLoader.load fsDemo ⟨".env", true⟩
        [("LOG_LEVEL", "verbose"), ("OTHER", "1")]).2 "LOG_LEVEL" =
      some (ConfigValue.str "verbose") :=
  C6_cascade_failure_keeps_raw fsDemo ⟨".env", true⟩
    [("LOG_LEVEL", "verbose"), ("OTHER", "1")] "LOG_LEVEL" "verbose"
    (by decide) (by decide) (by decide) (fun g => rfl)

/-! ### Claim C9 -/

/-- C9: in the cascade the boolean step precedes the positive-integer
step and the first success wins: for any qualifying key other than
`LOG_LEVEL` and `THEME_MODE`, the value `"1"` is stored as the boolean
`true`, `"0"` as the boolean `false`, and `"42"` as the integer `42`. -/
theorem C9_bool_before_int (fs : FS) (st : LoaderState) (key : String)
    (hv : st.hasValidator = true)
    (h1 : key ≠ "LOG_LEVEL") (h2 : key ≠ "THEME_MODE")
    (hk : pyIsUpper key = true) :
    dget (ConfigLoader.load fs st [(key, "1")]).2 key =
      some (ConfigValue.bool true) ∧
    dget (ConfigLoader.load fs st [(key, "0")]).2 key =
      some (ConfigValue.bool false) ∧
    dget (ConfigLoader.load fs st [(key, "42")]).2 key =
      some (ConfigValue.int 42) := by
  have hcast : ∀ (v : String) (w : ConfigValue),
      (match ConfigValidator.ensure_boolean v with
        | some b => some (fs, ConfigValue.bool b)
        | none =>
          match ConfigValidator.ensure_positive_int v with
          | some n => some (fs, ConfigValue.int n)
          | none =>
            if strContains key "PATH" || strContains key "DIR"
                || strContains key "FILE" then
              let p := fsResolve fs (expanduser fs v)
              if pathHasSuffix p then
                (ConfigValidator.validate_file_path fs p false).map
                  (fun s => (fs, ConfigValue.str s))
              else
                let r := ConfigValidator.validate_directory_path fs p true
                some (r.1, ConfigValue.str r.2)
            else some (fs, ConfigValue.str (ConfigValidator.ensure_string v))) =
        some (fs, w) →
      ConfigLoader.auto_cast fs st key v = some (fs, w) := by
    intro v w h
    rw [ConfigLoader.auto_cast, hv]
    simp only [Bool.not_true, Bool.false_eq_true, if_false, if_neg h1, if_neg h2]
    exact h
  refine ⟨?_, ?_, ?_⟩ <;>
    simp [ConfigLoader.load, ConfigLoader.loadStep, hk,
      hcast "1" (ConfigValue.bool true) rfl,
      hcast "0" (ConfigValue.bool false) rfl,
      hcast "42" (ConfigValue.int 42) rfl, dinsert, dget]

/-- Witness for C9 at the key `MY_FLAG`. -/
theorem C9_witness :
    dget (ConfigLoader.load fsDemo ⟨".env", true⟩ [("MY_FLAG", "1")]).2
        "MY_FLAG" = some (ConfigValue.bool true) ∧
    dget (ConfigLoader.load fsDemo ⟨".env", true⟩ [("MY_FLAG", "0")]).2
        "MY_FLAG" = some (ConfigValue.bool false) ∧
    dget (ConfigLoader.load fsDemo ⟨".env", true⟩ [("MY_FLAG", "42")]).2
        "MY_FLAG" = some (ConfigValue.int 42) :=
  C9_bool_before_int fsDemo ⟨".env", true⟩ "MY_FLAG" rfl
    (by decide) (by decide) (by decide)

/-! ### Resource registry lemmas -/

theorem getBasePath_cfg (fs : FS) (st : ResState) :
    (Resources.getBasePath fs st).1.cfg = st.cfg := by
  unfold Resources.getBasePath
  cases st.basePath <;> rfl

theorem getBasePath_res (fs : FS) (st : ResState) :
    (Resources.getBasePath fs st).1.res = st.res := by
  unfold Resources.getBasePath
  cases st.basePath <;> rfl

theorem getBasePath_attrs (fs : FS) (st : ResState) :
    (Resources.getBasePath fs st).1.attrs = st.attrs := by
  unfold Resources.getBasePath
  cases st.basePath <;> rfl

theorem getBasePath_accessors (fs : FS) (st : ResState) :
    (Resources.getBasePath fs st).1.accessors = st.accessors := by
  unfold Resources.getBasePath
  cases st.basePath <;> rfl

theorem mem_insertIfAbsent (l : List String) (a b : String) :
    b ∈ insertIfAbsent l a ↔ b ∈ l ∨ b = a := by
  unfold insertIfAbsent
  by_cases h : l.contains a
  · rw [if_pos h]
    constructor
    · exact Or.inl
    · rintro (hb | rfl)
      · exact hb
      · exact List.mem_of_elem_eq_true h
  · rw [if_neg h]
    simp

theorem initStep_cfg (bp : String) (acc : FS × ResState) (kv : String × String) :
    (Resources.initStep bp acc kv).2.cfg = acc.2.cfg := by
  by_cases h : kv.1 = "base" <;> simp [Resources.initStep, h]

theorem initStep_fs_indep (bp : String) (fs : FS) (kv : String × String)
    (s1 s2 : ResState) :
    (Resources.initStep bp (fs, s1) kv).1 =
      (Resources.initStep bp (fs, s2) kv).1 := by
  by_cases h : kv.1 = "base" <;> simp [Resources.initStep, h]

theorem initFold_cfg (bp : String) :
    ∀ (l : List (String × String)) (fs : FS) (s : ResState),
      (l.foldl (Resources.initStep bp) (fs, s)).2.cfg = s.cfg := by
  intro l
  induction l with
  | nil => intro fs s; rfl
  | cons kv t ih =>
    intro fs s
    rw [List.foldl_cons]
    rw [show Resources.initStep bp (fs, s) kv =
      ((Resources.initStep bp (fs, s) kv).1, (Resources.initStep bp (fs, s) kv).2)
      from rfl]
    rw [ih]
    exact initStep_cfg bp (fs, s) kv

theorem initFold_fs_indep (bp : String) :
    ∀ (l : List (String × String)) (fs : FS) (s1 s2 : ResState),
      (l.foldl (Resources.initStep bp) (fs, s1)).1 =
        (l.foldl (Resources.initStep bp) (fs, s2)).1 := by
  intro l
  induction l with
  | nil => intro fs s1 s2; rfl
  | cons kv t ih =>
    intro fs s1 s2
    rw [List.foldl_cons, List.foldl_cons]
    have h1 := initStep_fs_indep bp fs kv s1 s2
    rw [show Resources.initStep bp (fs, s1) kv =
        ((Resources.initStep bp (fs, s1) kv).1,
          (Resources.initStep bp (fs, s1) kv).2) from rfl,
      show Resources.initStep bp (fs, s2) kv =
        ((Resources.initStep bp (fs, s1) kv).1,
          (Resources.initStep bp (fs, s2) kv).2) from by rw [h1]]
    exact ih _ _ _

theorem initStep_base (bp : String) (fs : FS) (s : ResState)
    (kv : String × String) (h : kv.1 = "base") :
    Resources.initStep bp (fs, s) kv =
      (fs, { s with attrs := dinsert s.attrs "base" bp }) := by
  simp [Resources.initStep, h]

theorem initStep_other (bp : String) (fs : FS) (s : ResState)
    (kv : String × String) (h : ¬kv.1 = "base") :
    Resources.initStep bp (fs, s) kv =
      ((Resources.stepDir bp fs kv).1,
        { s with
          attrs := dinsert s.attrs kv.1 (Resources.stepPath bp fs kv)
          res := dinsert s.res kv.1
            (Resources.list_files (Resources.stepDir bp fs kv).1
              (Resources.stepPath bp fs kv))
          accessors := insertIfAbsent s.accessors kv.1 }) := by
  simp [Resources.initStep, h]

theorem initFold_res_mem (bp : String) (k : String) :
    ∀ (l : List (String × String)) (fs : FS) (s : ResState),
      (dget (l.foldl (Resources.initStep bp) (fs, s)).2.res k).isSome = true ↔
        ((dget s.res k).isSome = true ∨ (k ≠ "base" ∧ ∃ v, (k, v) ∈ l)) := by
  intro l
  induction l with
  | nil => intro fs s; simp
  | cons kv t ih =>
    intro fs s
    rw [List.foldl_cons]
    by_cases hb : kv.1 = "base"
    · rw [initStep_base bp fs s kv hb, ih]
      simp only [List.mem_cons]
      constructor
      · rintro (hd | ⟨hkb, v, hv⟩)
        · exact Or.inl hd
        · exact Or.inr ⟨hkb, v, Or.inr hv⟩
      · rintro (hd | ⟨hkb, v, rfl | hv⟩)
        · exact Or.inl hd
        · exact absurd hb hkb
        · exact Or.inr ⟨hkb, v, hv⟩
    · rw [initStep_other bp fs s kv hb, ih, isSome_dget_dinsert]
      simp only [List.mem_cons]
      constructor
      · rintro ((hk | hd) | ⟨hkb, v, hv⟩)
        · exact Or.inr ⟨by rw [hk]; exact hb, kv.2, Or.inl (by rw [hk])⟩
        · exact Or.inl hd
        · exact Or.inr ⟨hkb, v, Or.inr hv⟩
      · rintro (hd | ⟨hkb, v, rfl | hv⟩)
        · exact Or.inl (Or.inr hd)
        · exact Or.inl (Or.inl rfl)
        · exact Or.inr ⟨hkb, v, hv⟩

theorem initFold_attrs_mem (bp : String) (k : String) :
    ∀ (l : List (String × String)) (fs : FS) (s : ResState),
      (dget (l.foldl (Resources.initStep bp) (fs, s)).2.attrs k).isSome = true ↔
        ((dget s.attrs k).isSome = true ∨ ∃ v, (k, v) ∈ l) := by
  intro l
  induction l with
  | nil => intro fs s; simp
  | cons kv t ih =>
    intro fs s
    rw [List.foldl_cons]
    by_cases hb : kv.1 = "base"
    · rw [initStep_base bp fs s kv hb, ih, isSome_dget_dinsert]
      simp only [List.mem_cons]
      constructor
      · rintro ((hk | hd) | ⟨v, hv⟩)
        · exact Or.inr ⟨kv.2, Or.inl (by rw [hk, ← hb])⟩
        · exact Or.inl hd
        · exact Or.inr ⟨v, Or.inr hv⟩
      · rintro (hd | ⟨v, rfl | hv⟩)
        · exact Or.inl (Or.inr hd)
        · exact Or.inl (Or.inl hb)
        · exact Or.inr ⟨v, hv⟩
    · rw [initStep_other bp fs s kv hb, ih, isSome_dget_dinsert]
      simp only [List.mem_cons]
      constructor
      · rintro ((hk | hd) | ⟨v, hv⟩)
        · exact Or.inr ⟨kv.2, Or.inl (by rw [hk])⟩
        · exact Or.inl hd
        · exact Or.inr ⟨v, Or.inr hv⟩
      · rintro (hd | ⟨v, rfl | hv⟩)
        · exact Or.inl (Or.inr hd)
        · exact Or.inl (Or.inl rfl)
        · exact Or.inr ⟨v, hv⟩

theorem initFold_acc_mem (bp : String) (k : String) :
    ∀ (l : List (String × String)) (fs : FS) (s : ResState),
      k ∈ (l.foldl (Resources.initStep bp) (fs, s)).2.accessors ↔
        (k ∈ s.accessors ∨ (k ≠ "base" ∧ ∃ v, (k, v) ∈ l)) := by
  intro l
  induction l with
  | nil => intro fs s; simp
  | cons kv t ih =>
    intro fs s
    rw [List.foldl_cons]
    by_cases hb : kv.1 = "base"
    · rw [initStep_base bp fs s kv hb, ih]
      simp only [List.mem_cons]
      constructor
      · rintro (hd | ⟨hkb, v, hv⟩)
        · exact Or.inl hd
        · exact Or.inr ⟨hkb, v, Or.inr hv⟩
      · rintro (hd | ⟨hkb, v, rfl | hv⟩)
        · exact Or.inl hd
        · exact absurd hb hkb
        · exact Or.inr ⟨hkb, v, hv⟩
    · rw [initStep_other bp fs s kv hb, ih, mem_insertIfAbsent]
      simp only [List.mem_cons]
      constructor
      · rintro ((hd | hk) | ⟨hkb, v, hv⟩)
        · exact Or.inl hd
        · exact Or.inr ⟨by rw [hk]; exact hb, kv.2, Or.inl (by rw [hk])⟩
        · exact Or.inr ⟨hkb, v, Or.inr hv⟩
      · rintro (hd | ⟨hkb, v, rfl | hv⟩)
        · exact Or.inl (Or.inl hd)
        · exact Or.inl (Or.inr rfl)
        · exact Or.inr ⟨hkb, v, hv⟩

theorem initFold_res_untouched (bp : String) (k : String) :
    ∀ (l : List (String × String)) (fs : FS) (s : ResState),
      (∀ v, (k, v) ∉ l) →
      dget (l.foldl (Resources.initStep bp) (fs, s)).2.res k = dget s.res k := by
  intro l
  induction l with
  | nil => intro fs s _; rfl
  | cons kv t ih =>
    intro fs s hout
    have htail : ∀ v, (k, v) ∉ t :=
      fun v hv => hout v (List.mem_cons_of_mem _ hv)
    have hne : k ≠ kv.1 := by
      intro hk
      exact hout kv.2 (by rw [hk]; exact List.mem_cons_self _ _)
    rw [List.foldl_cons]
    by_cases hb : kv.1 = "base"
    · rw [initStep_base bp fs s kv hb, ih _ _ htail]
    · rw [initStep_other bp fs s kv hb, ih _ _ htail]
      exact dget_dinsert_ne _ _ _ _ hne

theorem initFold_res_indep (bp : String) (k : String) :
    ∀ (l : List (String × String)) (fs : FS) (s1 s2 : ResState),
      k ≠ "base" → (l.map Prod.fst).Nodup → (∃ v, (k, v) ∈ l) →
      dget (l.foldl (Resources.initStep bp) (fs, s1)).2.res k =
        dget (l.foldl (Resources.initStep bp) (fs, s2)).2.res k := by
  intro l
  induction l with
  | nil => rintro fs s1 s2 _ _ ⟨v, hv⟩; exact absurd hv (List.not_mem_nil _)
  | cons kv t ih =>
    rintro fs s1 s2 hkb hnd ⟨v, hv⟩
    rw [List.map_cons, List.nodup_cons] at hnd
    rw [List.foldl_cons, List.foldl_cons]
    rcases List.mem_cons.1 hv with heq | hvt
    · have hb : ¬kv.1 = "base" := by rw [← heq]; exact hkb
      have hk1 : kv.1 = k := by rw [← heq]
      have htail : ∀ v', (k, v') ∉ t := by
        intro v' hv'
        exact hnd.1 (by rw [hk1]; exact List.mem_map.2 ⟨(k, v'), hv', rfl⟩)
      rw [initStep_other bp fs s1 kv hb, initStep_other bp fs s2 kv hb,
        initFold_res_untouched bp k t _ _ htail,
        initFold_res_untouched bp k t _ _ htail]
      rw [← hk1] at *
      rw [dget_dinsert_self, dget_dinsert_self]
    · have h1 := initStep_fs_indep bp fs kv s1 s2
      rw [show Resources.initStep bp (fs, s1) kv =
          ((Resources.initStep bp (fs, s1) kv).1,
            (Resources.initStep bp (fs, s1) kv).2) from rfl,
        show Resources.initStep bp (fs, s2) kv =
          ((Resources.initStep bp (fs, s1) kv).1,
            (Resources.initStep bp (fs, s2) kv).2) from by rw [h1]]
      exact ih _ _ _ hkb hnd.2 ⟨v, hvt⟩

/-! ### Claim C2 -/

/-- C2: refuted on the code — after `initialize(cfg1)` followed by
`initialize(cfg2)` the exposed categories are not exactly those declared
by `cfg2`: the `icons` category declared only by `cfg1` is still present
in the `_resources` index and its accessors are still installed, because
`initialize` replaces `_cfg` but never clears `_resources` or removes
previously synthesized accessor methods. -/
theorem C2_replacement_counterexample :
    ((Resources.initialise resDemo.1 resDemo.2
        (some [("RESOURCES_FONTS", "assets/fonts")])).2.res.map Prod.fst) =
      ["icons", "fonts"] ∧
    (Resources.parseCfg [("RESOURCES_FONTS", "assets/fonts")]).map Prod.fst =
      ["fonts"] ∧
    "icons" ∈ (Resources.initialise resDemo.1 resDemo.2
        (some [("RESOURCES_FONTS", "assets/fonts")])).2.accessors := by
  decide

/-- C2 (amended): re-invoking `initialize(cfg2)` fully replaces the cached
configuration `_cfg` with the normalized form of `cfg2`, and every
non-`base` category of `cfg2` is (re)indexed and exposed — but previously
indexed categories are kept: afterwards a category is indexed (exposed)
iff it was indexed (exposed) before or is a non-`base` category declared
by `cfg2`; the exposed set is the union, not exactly `cfg2`'s set. -/
theorem C2_amended_union_merge (fs : FS) (st : ResState)
    (c2 : List (String × String)) (k : String) :
    ((Resources.initialise fs st (some c2)).2.cfg = Resources.parseCfg c2) ∧
    ((dget (Resources.initialise fs st (some c2)).2.res k).isSome = true ↔
      ((dget st.res k).isSome = true ∨
        (k ≠ "base" ∧ (dget (Resources.parseCfg c2) k).isSome = true))) ∧
    (k ∈ (Resources.initialise fs st (some c2)).2.accessors ↔
      (k ∈ st.accessors ∨
        (k ≠ "base" ∧ (dget (Resources.parseCfg c2) k).isSome = true))) := by
  have hinit : Resources.initialise fs st (some c2) =
      Resources.initCore fs
        { st with
          cfg := Resources.parseCfg c2
          resourceKey := (dget (Resources.parseCfg c2) "base").getD "resources" } :=
    rfl
  rw [hinit]
  unfold Resources.initCore
  refine ⟨?_, ?_, ?_⟩
  · rw [initFold_cfg, getBasePath_cfg]
  · rw [initFold_res_mem, getBasePath_res, getBasePath_cfg]
    simp only [dget_isSome_iff]
  · rw [initFold_acc_mem, getBasePath_accessors, getBasePath_cfg]
    simp only [dget_isSome_iff]

/-! ### Claim C3 -/

/-- C3: for an initialized category (its path attribute is installed),
`get_in_<name>(nameOrPath, suppress)` follows exactly the search order
(a) an existing filesystem entry is returned in resolved absolute form;
(b) else the category base directory joined with the name, if that
exists; (c) else, only under the bundled marker, the packaged resource
root joined with the name, if that exists; (d) otherwise a
`FileNotFoundError` when `suppress` is false and an absent result when
`suppress` is true. -/
theorem C3_resolve_search_order (fs : FS) (st : ResState) (name n base : String)
    (sup : Bool) (hattr : dget st.attrs name = some base) :
    (fsExists fs n = true →
      Resources.get_in fs st name n sup =
        ResolveResult.found (fsResolve fs n)) ∧
    (fsExists fs n = false → fsExists fs (joinPath base n) = true →
      Resources.get_in fs st name n sup =
        ResolveResult.found (fsResolve fs (joinPath base n))) ∧
    (fsExists fs n = false → fsExists fs (joinPath base n) = false →
      fs.frozen = true →
      fsExists fs (joinPath (Resources.getBasePath fs st).2 n) = true →
      Resources.get_in fs st name n sup =
        ResolveResult.found
          (fsResolve fs (joinPath (Resources.getBasePath fs st).2 n))) ∧
    (fsExists fs n = false → fsExists fs (joinPath base n) = false →
      (fs.frozen = false ∨
        fsExists fs (joinPath (Resources.getBasePath fs st).2 n) = false) →
      Resources.get_in fs st name n sup =
        (if sup then ResolveResult.absent else ResolveResult.notFound)) := by
  refine ⟨fun h1 => ?_, fun h1 h2 => ?_, fun h1 h2 h3 h4 => ?_,
    fun h1 h2 h3 => ?_⟩
  · simp [Resources.get_in, h1]
  · simp [Resources.get_in, h1, hattr, h2]
  · simp [Resources.get_in, h1, hattr, h2, h3, h4]
  · rcases h3 with h3 | h3 <;> simp [Resources.get_in, h1, hattr, h2, h3]

/-- Witness for C3 on the initialized demo registry: a present file in
the category directory resolves through step (b); a missing name fails
with the error, or degrades to the absent result when suppressed. -/
theorem C3_witness :
    Resources.get_in resDemo.1 resDemo.2 "icons" "logo.png" false =
      ResolveResult.found "/app/resources/icons/logo.png" ∧
    Resources.get_in resDemo.1 resDemo.2 "icons" "missing.png" false =
      ResolveResult.notFound ∧
    Resources.get_in resDemo.1 resDemo.2 "icons" "missing.png" true =
      ResolveResult.absent :=
  ⟨((C3_resolve_search_order resDemo.1 resDemo.2 "icons" "logo.png"
      "/app/resources/icons" false (by decide)).2.1
      (by decide) (by decide)).trans (by decide),
   (C3_resolve_search_order resDemo.1 resDemo.2 "icons" "missing.png"
      "/app/resources/icons" false (by decide)).2.2.2
      (by decide) (by decide) (Or.inl (by decide)),
   (C3_resolve_search_order resDemo.1 resDemo.2 "icons" "missing.png"
      "/app/resources/icons" true (by decide)).2.2.2
      (by decide) (by decide) (Or.inl (by decide))⟩

/-! ### Claim C10 -/

/-- C10: `initialize()` with no configuration argument after a previous
successful `initialize` neither fails nor leaves the registry untouched:
it runs the full indexing walk over the cached `_cfg` (exactly as a
configured call would), so every previously configured non-`base`
category gets its path attribute re-resolved and its file snapshot
re-indexed; the resulting snapshot is recomputed from the filesystem,
independent of the previously stored snapshots; and the no-op error
branch applies exactly when the cached configuration is empty. -/
theorem C10_reinitialize_from_cache (fs : FS) (st : ResState) :
    (st.cfg ≠ [] →
      Resources.initialise fs st none = Resources.initCore fs st) ∧
    (st.cfg = [] → Resources.initialise fs st none = (fs, st)) ∧
    (∀ k v, (k, v) ∈ st.cfg → k ≠ "base" →
      (dget (Resources.initialise fs st none).2.res k).isSome = true ∧
      (dget (Resources.initialise fs st none).2.attrs k).isSome = true) ∧
    (∀ k v (r' : List (String × List String)), (k, v) ∈ st.cfg →
      k ≠ "base" → (st.cfg.map Prod.fst).Nodup →
      dget (Resources.initialise fs st none).2.res k =
        dget (Resources.initialise fs { st with res := r' } none).2.res k) := by
  refine ⟨fun h => ?_, fun h => ?_, fun k v hmem hkb => ?_,
    fun k v r' hmem hkb hnd => ?_⟩
  · have he : st.cfg.isEmpty = false := by
      cases hc : st.cfg
      · exact absurd hc h
      · rfl
    simp [Resources.initialise, he]
  · simp [Resources.initialise, h]
  · have he : st.cfg.isEmpty = false := by
      cases hc : st.cfg
      · rw [hc] at hmem; exact absurd hmem (List.not_mem_nil _)
      · rfl
    rw [show Resources.initialise fs st none = Resources.initCore fs st from
      by simp [Resources.initialise, he]]
    unfold Resources.initCore
    constructor
    · rw [initFold_res_mem]
      exact Or.inr ⟨hkb, v, by rw [getBasePath_cfg]; exact hmem⟩
    · rw [initFold_attrs_mem]
      exact Or.inr ⟨v, by rw [getBasePath_cfg]; exact hmem⟩
  · have he : st.cfg.isEmpty = false := by
      cases hc : st.cfg
      · rw [hc] at hmem; exact absurd hmem (List.not_mem_nil _)
      · rfl
    rw [show Resources.initialise fs st none = Resources.initCore fs st from
        by simp [Resources.initialise, he],
      show Resources.initialise fs { st with res := r' } none =
          Resources.initCore fs { st with res := r' } from
        by simp [Resources.initialise, he]]
    unfold Resources.initCore
    cases hb : st.basePath with
    | some b =>
      simp only [Resources.getBasePath, hb]
      exact initFold_res_indep b k st.cfg fs _ _ hkb hnd ⟨v, hmem⟩
    | none =>
      simp only [Resources.getBasePath, hb]
      exact initFold_res_indep _ k st.cfg fs _ _ hkb hnd ⟨v, hmem⟩

/-- Witness for C10 on the demo registry: a repeat `initialize()` with no
argument equals the full indexing walk, keeps `icons` indexed and
resolved, and its refreshed snapshot does not depend on the previously
stored snapshots. -/
theorem C10_witness :
    resDemo.2.cfg ≠ [] ∧
    Resources.initialise fsDemo resDemo.2 none =
      Resources.initCore fsDemo resDemo.2 ∧
    (dget (Resources.initialise fsDemo resDemo.2 none).2.res "icons").isSome
      = true ∧
    dget (Resources.initialise fsDemo resDemo.2 none).2.res "icons" =
      dget (Resources.initialise fsDemo
        { resDemo.2 with res := [("icons", ["stale"])] } none).2.res "icons" ∧
    Resources.initialise fsDemo ResState.empty none = (fsDemo, ResState.empty) :=
  ⟨by decide,
   (C10_reinitialize_from_cache fsDemo resDemo.2).1 (by decide),
   ((C10_reinitialize_from_cache fsDemo resDemo.2).2.2.1 "icons" "assets/icons"
     (by decide) (by decide)).1,
   (C10_reinitialize_from_cache fsDemo resDemo.2).2.2.2 "icons" "assets/icons"
     [("icons", ["stale"])] (by decide) (by decide) (by decide),
   (C10_reinitialize_from_cache fsDemo ResState.empty).2.1 rfl⟩
